import Mathlib

/-!
Verification of the registration intake service (src/server.js).

The source file concatenates two variants of the server; the claims reference
the second variant (the one defining the discipline-split schema, the admin
session tokens, the SQLite retry wrapper and the CSV export), so all
definitions below are translated from that variant.  Machine integers are
modelled as `Nat`/`Int` (amounts are small), JavaScript strings as `String`,
thrown exceptions as `Except`, and the SQLite row set as a Lean list.
-/

namespace IaidoCamp

/-! ### Pricing engine (server.js: PRICE_OPTIONS, toEnumValue, calculatePricing) -/

/-- One entry of the `PRICE_OPTIONS` catalog: key, display label, amount. -/
structure PriceEntry where
  code : String
  label : String
  amountHuf : Nat
deriving DecidableEq

/-- `PRICE_OPTIONS.campType`. -/
def campTypeOptions : List PriceEntry :=
  [⟨"iaido", "Iaido seminar", 149⟩,
   ⟨"jodo", "Jodo seminar", 149⟩,
   ⟨"both", "Iaido + Jodo seminar", 249⟩]

/-- `PRICE_OPTIONS.mealPlan`. -/
def mealPlanOptions : List PriceEntry :=
  [⟨"none", "No meal", 0⟩,
   ⟨"lunch", "Lunch package", 33⟩,
   ⟨"full", "Full meal package", 60⟩]

/-- `PRICE_OPTIONS.accommodation`. -/
def accommodationOptions : List PriceEntry :=
  [⟨"none", "No accommodation", 0⟩,
   ⟨"dojo", "Dojo accommodation", 73⟩,
   ⟨"guesthouse", "Guesthouse", 135⟩]

/-- The whitespace class of JavaScript (`\s`, also used by `String.prototype.trim`):
ASCII whitespace, NBSP, BOM and the Unicode space separators. -/
def isJsWhitespace (c : Char) : Bool :=
  c == ' ' || c == '\t' || c == '\n' || c == '\r' ||
  c.toNat == 0x0b || c.toNat == 0x0c ||
  c.toNat == 0xa0 || c.toNat == 0x1680 ||
  (0x2000 <= c.toNat && c.toNat <= 0x200a) ||
  c.toNat == 0x2028 || c.toNat == 0x2029 || c.toNat == 0x202f ||
  c.toNat == 0x205f || c.toNat == 0x3000 || c.toNat == 0xfeff

/-- JavaScript `String.prototype.trim()`: strip leading and trailing whitespace. -/
def jsTrim (s : String) : String :=
  String.mk (((s.data.dropWhile isJsWhitespace).reverse.dropWhile isJsWhitespace).reverse)

/-- `toEnumValue(value, allowedValues, fallbackValue)`: trim the raw string and
keep it when it is a key of the option table, otherwise fall back. -/
def toEnumValue (value : String) (allowedValues : List PriceEntry)
    (fallbackValue : String) : String :=
  let normalized := jsTrim value
  if allowedValues.any (fun e => e.code == normalized) then normalized
  else fallbackValue

/-- The three raw option strings handed to `calculatePricing`. -/
structure Selection where
  campType : String
  mealPlan : String
  accommodation : String
deriving DecidableEq

/-- One entry of the `lineItems` array built by `calculatePricing`. -/
structure LineItem where
  key : String
  code : String
  label : String
  amountHuf : Nat
deriving DecidableEq

/-- The object returned by `calculatePricing`. -/
structure Pricing where
  selection : Selection
  lineItems : List LineItem
  totalHuf : Nat
  currency : String
deriving DecidableEq

/-- Lookup `PRICE_OPTIONS.<cat>[code]`; after `toEnumValue` the key is always
present, the default entry is never reached. -/
def lookupOption (options : List PriceEntry) (code : String) : PriceEntry :=
  (options.find? (fun e => e.code == code)).getD ⟨code, "", 0⟩

/-- `calculatePricing(selection)`: resolve each option with its fallback, build
the three line items and sum their amounts. -/
def calculatePricing (selection : Selection) : Pricing :=
  let campType := toEnumValue selection.campType campTypeOptions "iaido"
  let mealPlan := toEnumValue selection.mealPlan mealPlanOptions "none"
  let accommodation := toEnumValue selection.accommodation accommodationOptions "none"
  let lineItems : List LineItem :=
    [⟨"campType", campType, (lookupOption campTypeOptions campType).label,
      (lookupOption campTypeOptions campType).amountHuf⟩,
     ⟨"mealPlan", mealPlan, (lookupOption mealPlanOptions mealPlan).label,
      (lookupOption mealPlanOptions mealPlan).amountHuf⟩,
     ⟨"accommodation", accommodation, (lookupOption accommodationOptions accommodation).label,
      (lookupOption accommodationOptions accommodation).amountHuf⟩]
  let totalHuf := lineItems.foldl (fun sum item => sum + item.amountHuf) 0
  ⟨⟨campType, mealPlan, accommodation⟩, lineItems, totalHuf, "EUR"⟩

/-! ### Contention-retry wrapper (server.js: isSqliteBusyError, runWithSqliteRetry) -/

/-- `SQLITE_RETRY_MAX_ATTEMPTS`. -/
def SQLITE_RETRY_MAX_ATTEMPTS : Nat := 5

/-- `SQLITE_RETRY_BASE_DELAY_MS`. -/
def SQLITE_RETRY_BASE_DELAY_MS : Nat := 120

/-- A JavaScript error as inspected by `isSqliteBusyError`: `String(error?.code || '')`
and `String(error?.message || '')`. -/
structure SqliteError where
  code : String
  message : String
deriving DecidableEq

/-- Does the character list start with the pattern list? -/
def startsWithPat : List Char → List Char → Bool
  | _, [] => true
  | [], _ :: _ => false
  | c :: cs, p :: ps => c == p && startsWithPat cs ps

/-- Does the character list contain the pattern list as a contiguous run? -/
def containsPat : List Char → List Char → Bool
  | [], pat => pat.isEmpty
  | c :: cs, pat => startsWithPat (c :: cs) pat || containsPat cs pat

/-- `/pattern/i.test(s)` for a literal pattern: case-insensitive substring test. -/
def testInsensitive (pattern : String) (s : String) : Bool :=
  containsPat (s.data.map Char.toLower) (pattern.data.map Char.toLower)

/-- `isSqliteBusyError(error)`. -/
def isSqliteBusyError (error : SqliteError) : Bool :=
  error.code == "SQLITE_BUSY" ||
  error.code == "SQLITE_LOCKED" ||
  testInsensitive "database is locked" error.message ||
  testInsensitive "database is busy" error.message

/-- The `for (let attempt = 1; attempt <= SQLITE_RETRY_MAX_ATTEMPTS; ...)` loop of
`runWithSqliteRetry`, iterating over the remaining attempt numbers.  The
operation is modelled as a function from the attempt number to its outcome.
The result pairs the value returned or the error thrown with the list of
delays awaited (`SQLITE_RETRY_BASE_DELAY_MS * attempt` each).  Falling off the
end of the attempt list is the (unreachable) line
`throw new Error('SQLite retry exhausted.')`. -/
def retryLoop {α : Type} (operation : Nat → Except SqliteError α) :
    List Nat → Except SqliteError α × List Nat
  | [] => (Except.error ⟨"", "SQLite retry exhausted."⟩, [])
  | attempt :: rest =>
    match operation attempt with
    | Except.ok value => (Except.ok value, [])
    | Except.error e =>
      if isSqliteBusyError e && decide (attempt < SQLITE_RETRY_MAX_ATTEMPTS) then
        let r := retryLoop operation rest
        (r.1, SQLITE_RETRY_BASE_DELAY_MS * attempt :: r.2)
      else (Except.error e, [])

/-- `runWithSqliteRetry(operation)`. -/
def runWithSqliteRetry {α : Type} (operation : Nat → Except SqliteError α) :
    Except SqliteError α × List Nat :=
  retryLoop operation (List.range' 1 SQLITE_RETRY_MAX_ATTEMPTS)

/-! ### Validation layer (server.js: isNonEmptyString, isValidEmail, isValidPhone,
sanitizePayload, validateRegistration) -/

/-- JavaScript `String.prototype.toLowerCase()` restricted to the ASCII mapping
(the only characters the claims exercise). -/
def jsLower (s : String) : String :=
  String.mk (s.data.map Char.toLower)

/-- `isNonEmptyString(value)`: `value.trim().length > 0`. -/
def isNonEmptyString (value : String) : Bool :=
  decide (0 < (jsTrim value).data.length)

/-- A character admitted by the `[^\s@]` class of the email pattern. -/
def isEmailChar (c : Char) : Bool :=
  !(isJsWhitespace c) && c != '@'

/-- Is some `'.'` strictly inside the list (neither first nor last)? -/
def hasInnerDot (l : List Char) : Bool :=
  (List.range l.length).any fun i =>
    l.getD i ' ' == '.' && decide (0 < i) && decide (i + 1 < l.length)

/-- `isValidEmail(value)`: the test `/^[^\s@]+@[^\s@]+\.[^\s@]+$/.test(value)`.
Because `[^\s@]` excludes `@`, the pattern matches exactly when the string
splits at its unique `@` into a non-empty whitespace-free local part and a
whitespace-free domain part containing a `.` that is neither its first nor its
last character. -/
def isValidEmail (value : String) : Bool :=
  let l := value.data
  let localPart := l.takeWhile (fun c => c != '@')
  match l.dropWhile (fun c => c != '@') with
  | [] => false
  | _ :: domainPart =>
    !localPart.isEmpty && localPart.all isEmailChar &&
    !domainPart.isEmpty && domainPart.all isEmailChar && hasInnerDot domainPart

/-- A character admitted by the `[+()\-\s0-9]` class of the phone pattern. -/
def isPhoneChar (c : Char) : Bool :=
  c == '+' || c == '(' || c == ')' || c == '-' || isJsWhitespace c || c.isDigit

/-- `isValidPhone(value)`: `/^[+()\-\s0-9]{7,20}$/.test(value.trim())`. -/
def isValidPhone (value : String) : Bool :=
  let l := (jsTrim value).data
  l.all isPhoneChar && decide (7 ≤ l.length) && decide (l.length ≤ 20)

/-- `/^\d{4}$/.test(zip)`. -/
def isFourDigitZip (zip : String) : Bool :=
  zip.data.all Char.isDigit && decide (zip.data.length = 4)

/-- The canonical shape produced by `sanitizePayload` and consumed by
`validateRegistration`. -/
structure SanitizedData where
  fullName : String
  email : String
  phone : String
  dateOfBirth : String
  city : String
  currentGradeIaido : String
  currentGradeJodo : String
  campType : String
  mealPlan : String
  accommodation : String
  wantsExamIaido : Bool
  targetGradeIaido : String
  wantsExamJodo : Bool
  targetGradeJodo : String
  billingFullName : String
  billingZip : String
  billingCity : String
  billingAddress : String
  billingCountry : String
  foodNotes : String
  privacyConsent : Bool
  termsConsent : Bool
deriving DecidableEq

/-- The raw JSON body as read by `sanitizePayload`.  Fields read through
`String(x || '')` are plain strings (absence behaves as `""`); fields read
through the `??` operator keep an `Option` to distinguish absent from present;
boolean coercions are plain `Bool`. -/
structure RawPayload where
  fullName : String
  email : String
  phone : String
  dateOfBirth : String
  city : String
  currentGradeIaido : Option String
  currentGrade : Option String
  currentGradeJodo : String
  campType : String
  mealPlan : String
  accommodation : String
  wantsExamIaido : Option Bool
  wantsExam : Option Bool
  wantsExamJodo : Bool
  targetGradeIaido : Option String
  targetGrade : Option String
  targetGradeJodo : String
  billingFullName : String
  billingZip : String
  billingCity : String
  billingAddress : String
  billingCountry : String
  foodNotes : String
  privacyConsent : Bool
  termsConsent : Bool
deriving DecidableEq

/-- `sanitizePayload(payload)`. -/
def sanitizePayload (payload : RawPayload) : SanitizedData :=
  let fallbackTargetGradeIaido :=
    ((payload.targetGradeIaido).orElse (fun _ => payload.targetGrade)).getD ""
  let fallbackCurrentGradeIaido :=
    ((payload.currentGradeIaido).orElse (fun _ => payload.currentGrade)).getD ""
  let wantsExamIaido := ((payload.wantsExamIaido).orElse (fun _ => payload.wantsExam)).getD false
  let wantsExamJodo := payload.wantsExamJodo
  let campType := toEnumValue payload.campType campTypeOptions "iaido"
  let mealPlan := toEnumValue payload.mealPlan mealPlanOptions "none"
  let accommodation := toEnumValue payload.accommodation accommodationOptions "none"
  { fullName := jsTrim payload.fullName
    email := jsLower (jsTrim payload.email)
    phone := jsTrim payload.phone
    dateOfBirth := jsTrim payload.dateOfBirth
    city := jsTrim payload.city
    currentGradeIaido := jsTrim fallbackCurrentGradeIaido
    currentGradeJodo := jsTrim payload.currentGradeJodo
    campType := campType
    mealPlan := mealPlan
    accommodation := accommodation
    wantsExamIaido := wantsExamIaido
    targetGradeIaido := if wantsExamIaido then jsTrim fallbackTargetGradeIaido else ""
    wantsExamJodo := wantsExamJodo
    targetGradeJodo := if wantsExamJodo then jsTrim payload.targetGradeJodo else ""
    billingFullName := jsTrim payload.billingFullName
    billingZip := jsTrim payload.billingZip
    billingCity := jsTrim payload.billingCity
    billingAddress := jsTrim payload.billingAddress
    billingCountry := jsTrim (if payload.billingCountry == "" then "Hungary" else payload.billingCountry)
    foodNotes := jsTrim payload.foodNotes
    privacyConsent := payload.privacyConsent
    termsConsent := payload.termsConsent }

/-- One `if (cond) errors.push(msg)` step of `validateRegistration`. -/
def check (cond : Bool) (msg : String) : List String :=
  if cond then [msg] else []

/-- `validateRegistration(data)`: accumulate every violated rule, in source
order. -/
def validateRegistration (data : SanitizedData) : List String :=
  let needsIaidoGrade := data.campType == "iaido" || data.campType == "both" || data.wantsExamIaido
  let needsJodoGrade := data.campType == "jodo" || data.campType == "both" || data.wantsExamJodo
  check (!isNonEmptyString data.fullName) "Full name is required." ++
  check (!isValidEmail data.email) "A valid email address is required." ++
  check (!isValidPhone data.phone) "A valid phone number is required." ++
  check (!isNonEmptyString data.city) "City is required." ++
  check (needsIaidoGrade && !isNonEmptyString data.currentGradeIaido)
    "Current Iaido grade is required for the selected option." ++
  check (needsJodoGrade && !isNonEmptyString data.currentGradeJodo)
    "Current Jodo grade is required for the selected option." ++
  check (!(campTypeOptions.any (fun e => e.code == data.campType)))
    "Invalid seminar selection." ++
  check (!(mealPlanOptions.any (fun e => e.code == data.mealPlan)))
    "Invalid meal option." ++
  check (!(accommodationOptions.any (fun e => e.code == data.accommodation)))
    "Invalid accommodation option." ++
  check (data.wantsExamIaido && !isNonEmptyString data.targetGradeIaido)
    "Iaido target grade is required if Iaido exam is selected." ++
  check (data.wantsExamJodo && !isNonEmptyString data.targetGradeJodo)
    "Jodo target grade is required if Jodo exam is selected." ++
  check (data.wantsExamIaido && data.campType == "jodo")
    "Iaido exam can only be selected with Iaido or Iaido + Jodo participation." ++
  check (data.wantsExamJodo && data.campType == "iaido")
    "Jodo exam can only be selected with Jodo or Iaido + Jodo participation." ++
  check (!isNonEmptyString data.billingFullName) "Billing full name is required." ++
  check (!isFourDigitZip data.billingZip) "Billing ZIP code must be 4 digits." ++
  check (!isNonEmptyString data.billingCity) "Billing city is required." ++
  check (!isNonEmptyString data.billingAddress) "Billing address is required." ++
  check (!isNonEmptyString data.billingCountry) "Billing country is required." ++
  check (decide (data.foodNotes.data.length > 4000)) "Note cannot exceed 4000 characters." ++
  check (!data.privacyConsent) "Privacy consent is required." ++
  check (!data.termsConsent) "Accepting participation terms is required."

/-- Membership in a single accumulation step. -/
theorem mem_check {m msg : String} {c : Bool} : m ∈ check c msg ↔ (c = true ∧ m = msg) := by
  cases c <;> simp [check]

/-- A single accumulation step is empty exactly when its condition is false. -/
theorem check_eq_nil {msg : String} {c : Bool} : check c msg = [] ↔ c = false := by
  cases c <;> simp [check]

/-- C4: for every input triple of option strings, `calculatePricing` returns a
breakdown whose total equals the sum of the three resolved line-item amounts,
and any unrecognized (hence also empty) option value is silently replaced by
the per-category default: camp type falls back to `iaido`, meal plan and
accommodation fall back to `none`.  The function is total, so no input raises;
purity and determinism are inherent in its being a Lean function. -/
theorem calculatePricing_spec (sel : Selection) :
    (∃ i1 i2 i3 : LineItem,
        (calculatePricing sel).lineItems = [i1, i2, i3] ∧
        (calculatePricing sel).totalHuf = i1.amountHuf + i2.amountHuf + i3.amountHuf)
    ∧ (campTypeOptions.any (fun e => e.code == jsTrim sel.campType) = false →
        (calculatePricing sel).selection.campType = "iaido")
    ∧ (mealPlanOptions.any (fun e => e.code == jsTrim sel.mealPlan) = false →
        (calculatePricing sel).selection.mealPlan = "none")
    ∧ (accommodationOptions.any (fun e => e.code == jsTrim sel.accommodation) = false →
        (calculatePricing sel).selection.accommodation = "none") := by
  refine ⟨⟨_, _, _, rfl, ?_⟩, ?_, ?_, ?_⟩
  · simp [calculatePricing]
  · intro h
    simp [calculatePricing, toEnumValue, h]
  · intro h
    simp [calculatePricing, toEnumValue, h]
  · intro h
    simp [calculatePricing, toEnumValue, h]

/-- Witness for `calculatePricing_spec` at the concrete selection
`("bogus", " lunch ", "")`: camp type falls back, meal plan resolves, the
total is the sum 149 + 33 + 0. -/
theorem calculatePricing_spec_witness :
    (calculatePricing ⟨"bogus", " lunch ", ""⟩).selection.campType = "iaido"
    ∧ (calculatePricing ⟨"bogus", " lunch ", ""⟩).selection.accommodation = "none"
    ∧ (calculatePricing ⟨"bogus", " lunch ", ""⟩).totalHuf = 149 + 33 + 0 := by
  refine ⟨(calculatePricing_spec ⟨"bogus", " lunch ", ""⟩).2.1 (by decide),
          (calculatePricing_spec ⟨"bogus", " lunch ", ""⟩).2.2.2 (by decide), ?_⟩
  rfl

/-- C2 (amended): the classifier `isSqliteBusyError` marks an error retryable
exactly when its code is SQLITE_BUSY/SQLITE_LOCKED or its message matches the
locked/busy pattern (its definition above); `runWithSqliteRetry` waits
`attempt * 120` ms after each retryable failure (linear backoff) and re-invokes
the operation, for at most 5 attempts in total.  When every attempt fails with
a retryable error the error of the final attempt propagates after the four
delays 120, 240, 360, 480 ms — the `SQLite retry exhausted.` failure in the
source is unreachable.  A non-retryable error propagates immediately with no
delay, and success after `k` retryable failures returns the value after the
delays `120*1, ..., 120*k`. -/
theorem runWithSqliteRetry_spec {α : Type} (op : Nat → Except SqliteError α)
    (e : SqliteError) :
    ((∀ n, op n = Except.error e) → isSqliteBusyError e = true →
      runWithSqliteRetry op = (Except.error e, [120, 240, 360, 480]))
    ∧ (isSqliteBusyError e = false → op 1 = Except.error e →
      runWithSqliteRetry op = (Except.error e, []))
    ∧ (∀ (v : α) (k : Nat), k < SQLITE_RETRY_MAX_ATTEMPTS →
      (∀ n, 1 ≤ n → n ≤ k → op n = Except.error e) →
      op (k + 1) = Except.ok v →
      isSqliteBusyError e = true →
      runWithSqliteRetry op =
        (Except.ok v, (List.range' 1 k).map (fun a => SQLITE_RETRY_BASE_DELAY_MS * a))) := by
  refine ⟨?_, ?_, ?_⟩
  · intro h hb
    simp [runWithSqliteRetry, SQLITE_RETRY_MAX_ATTEMPTS, SQLITE_RETRY_BASE_DELAY_MS,
      List.range', retryLoop, h, hb]
  · intro hb h1
    simp [runWithSqliteRetry, SQLITE_RETRY_MAX_ATTEMPTS, SQLITE_RETRY_BASE_DELAY_MS,
      List.range', retryLoop, h1, hb]
  · intro v k hk hfail hok hb
    simp only [SQLITE_RETRY_MAX_ATTEMPTS] at hk
    interval_cases k
    · simp [runWithSqliteRetry, SQLITE_RETRY_MAX_ATTEMPTS, SQLITE_RETRY_BASE_DELAY_MS,
        List.range', retryLoop, hok]
    · simp [runWithSqliteRetry, SQLITE_RETRY_MAX_ATTEMPTS, SQLITE_RETRY_BASE_DELAY_MS,
        List.range', retryLoop, hfail 1 (by omega) (by omega), hok, hb]
    · simp [runWithSqliteRetry, SQLITE_RETRY_MAX_ATTEMPTS, SQLITE_RETRY_BASE_DELAY_MS,
        List.range', retryLoop, hfail 1 (by omega) (by omega),
        hfail 2 (by omega) (by omega), hok, hb]
    · simp [runWithSqliteRetry, SQLITE_RETRY_MAX_ATTEMPTS, SQLITE_RETRY_BASE_DELAY_MS,
        List.range', retryLoop, hfail 1 (by omega) (by omega),
        hfail 2 (by omega) (by omega), hfail 3 (by omega) (by omega), hok, hb]
    · simp [runWithSqliteRetry, SQLITE_RETRY_MAX_ATTEMPTS, SQLITE_RETRY_BASE_DELAY_MS,
        List.range', retryLoop, hfail 1 (by omega) (by omega),
        hfail 2 (by omega) (by omega), hfail 3 (by omega) (by omega),
        hfail 4 (by omega) (by omega), hok, hb]

/-- Witness for `runWithSqliteRetry_spec`: an operation that always throws a
SQLITE_BUSY error is retried with delays 120, 240, 360, 480 ms and the busy
error itself propagates. -/
theorem runWithSqliteRetry_spec_witness :
    runWithSqliteRetry (fun _ => (Except.error ⟨"SQLITE_BUSY", "b"⟩ : Except SqliteError Unit))
      = (Except.error ⟨"SQLITE_BUSY", "b"⟩, [120, 240, 360, 480]) :=
  (runWithSqliteRetry_spec (fun _ => Except.error ⟨"SQLITE_BUSY", "b"⟩)
    ⟨"SQLITE_BUSY", "b"⟩).1 (fun _ => rfl) (by decide)

/-- Counterexample to C2 as stated: when the maximum of 5 attempts is exceeded
the wrapper propagates the original busy error, not a terminal "retry
exhausted" failure — the final error of a run whose operation always throws
`SQLITE_BUSY / database is locked` is that busy error and differs from the
`SQLite retry exhausted.` error. -/
theorem runWithSqliteRetry_counterexample :
    (runWithSqliteRetry
        (fun _ => (Except.error ⟨"SQLITE_BUSY", "database is locked"⟩ :
          Except SqliteError Unit))).1
      = Except.error ⟨"SQLITE_BUSY", "database is locked"⟩
    ∧ (runWithSqliteRetry
        (fun _ => (Except.error ⟨"SQLITE_BUSY", "database is locked"⟩ :
          Except SqliteError Unit))).1
      ≠ Except.error ⟨"", "SQLite retry exhausted."⟩ := by
  constructor
  · rfl
  · intro h
    rw [show (runWithSqliteRetry
        (fun _ => (Except.error ⟨"SQLITE_BUSY", "database is locked"⟩ :
          Except SqliteError Unit))).1
      = Except.error ⟨"SQLITE_BUSY", "database is locked"⟩ from rfl] at h
    injection h with h1
    exact absurd (congrArg SqliteError.code h1) (by decide)

/-- C6: `validateRegistration` enforces the cross-field grade/exam rules and
accumulates all violations: the Iaido-exam/camp-type conflict message is
reported exactly when wants-exam-Iaido is set with camp type `jodo` (and
symmetrically for Jodo), each target-grade message exactly when the exam flag
is set with an empty target grade, each current-grade message exactly when the
discipline is required (matching camp type, camp type `both`, or wants-exam)
with an empty current grade, and an empty error list implies every one of
these rules holds. -/
theorem validateRegistration_grade_exam_rules (d : SanitizedData) :
    ("Iaido exam can only be selected with Iaido or Iaido + Jodo participation."
        ∈ validateRegistration d ↔ (d.wantsExamIaido = true ∧ d.campType = "jodo"))
    ∧ ("Jodo exam can only be selected with Jodo or Iaido + Jodo participation."
        ∈ validateRegistration d ↔ (d.wantsExamJodo = true ∧ d.campType = "iaido"))
    ∧ ("Iaido target grade is required if Iaido exam is selected."
        ∈ validateRegistration d ↔
          (d.wantsExamIaido = true ∧ isNonEmptyString d.targetGradeIaido = false))
    ∧ ("Jodo target grade is required if Jodo exam is selected."
        ∈ validateRegistration d ↔
          (d.wantsExamJodo = true ∧ isNonEmptyString d.targetGradeJodo = false))
    ∧ ("Current Iaido grade is required for the selected option."
        ∈ validateRegistration d ↔
          ((d.campType = "iaido" ∨ d.campType = "both" ∨ d.wantsExamIaido = true)
            ∧ isNonEmptyString d.currentGradeIaido = false))
    ∧ ("Current Jodo grade is required for the selected option."
        ∈ validateRegistration d ↔
          ((d.campType = "jodo" ∨ d.campType = "both" ∨ d.wantsExamJodo = true)
            ∧ isNonEmptyString d.currentGradeJodo = false))
    ∧ (validateRegistration d = [] →
        ¬(d.wantsExamIaido = true ∧ d.campType = "jodo")
        ∧ ¬(d.wantsExamJodo = true ∧ d.campType = "iaido")
        ∧ (d.wantsExamIaido = true → isNonEmptyString d.targetGradeIaido = true)
        ∧ (d.wantsExamJodo = true → isNonEmptyString d.targetGradeJodo = true)
        ∧ ((d.campType = "iaido" ∨ d.campType = "both" ∨ d.wantsExamIaido = true) →
            isNonEmptyString d.currentGradeIaido = true)
        ∧ ((d.campType = "jodo" ∨ d.campType = "both" ∨ d.wantsExamJodo = true) →
            isNonEmptyString d.currentGradeJodo = true)) := by
  have hI1 : "Iaido exam can only be selected with Iaido or Iaido + Jodo participation."
      ∈ validateRegistration d ↔ (d.wantsExamIaido = true ∧ d.campType = "jodo") := by
    simp [validateRegistration, mem_check, List.mem_append]
  have hI2 : "Jodo exam can only be selected with Jodo or Iaido + Jodo participation."
      ∈ validateRegistration d ↔ (d.wantsExamJodo = true ∧ d.campType = "iaido") := by
    simp [validateRegistration, mem_check, List.mem_append]
  have hI3 : "Iaido target grade is required if Iaido exam is selected."
      ∈ validateRegistration d ↔
        (d.wantsExamIaido = true ∧ isNonEmptyString d.targetGradeIaido = false) := by
    simp [validateRegistration, mem_check, List.mem_append]
  have hI4 : "Jodo target grade is required if Jodo exam is selected."
      ∈ validateRegistration d ↔
        (d.wantsExamJodo = true ∧ isNonEmptyString d.targetGradeJodo = false) := by
    simp [validateRegistration, mem_check, List.mem_append]
  have hI5 : "Current Iaido grade is required for the selected option."
      ∈ validateRegistration d ↔
        ((d.campType = "iaido" ∨ d.campType = "both" ∨ d.wantsExamIaido = true)
          ∧ isNonEmptyString d.currentGradeIaido = false) := by
    simp [validateRegistration, mem_check, List.mem_append, or_assoc]
  have hI6 : "Current Jodo grade is required for the selected option."
      ∈ validateRegistration d ↔
        ((d.campType = "jodo" ∨ d.campType = "both" ∨ d.wantsExamJodo = true)
          ∧ isNonEmptyString d.currentGradeJodo = false) := by
    simp [validateRegistration, mem_check, List.mem_append, or_assoc]
  refine ⟨hI1, hI2, hI3, hI4, hI5, hI6, ?_⟩
  intro h
  rw [h] at hI1 hI2 hI3 hI4 hI5 hI6
  refine ⟨?_, ?_, ?_, ?_, ?_, ?_⟩
  · intro hcond
    exact (List.not_mem_nil _) (hI1.mpr hcond)
  · intro hcond
    exact (List.not_mem_nil _) (hI2.mpr hcond)
  · intro hw
    by_cases hne : isNonEmptyString d.targetGradeIaido = true
    · exact hne
    · exact absurd (hI3.mpr ⟨hw, by simpa using hne⟩) (List.not_mem_nil _)
  · intro hw
    by_cases hne : isNonEmptyString d.targetGradeJodo = true
    · exact hne
    · exact absurd (hI4.mpr ⟨hw, by simpa using hne⟩) (List.not_mem_nil _)
  · intro hneed
    by_cases hne : isNonEmptyString d.currentGradeIaido = true
    · exact hne
    · exact absurd (hI5.mpr ⟨hneed, by simpa using hne⟩) (List.not_mem_nil _)
  · intro hneed
    by_cases hne : isNonEmptyString d.currentGradeJodo = true
    · exact hne
    · exact absurd (hI6.mpr ⟨hneed, by simpa using hne⟩) (List.not_mem_nil _)

/-- Witness for `validateRegistration_grade_exam_rules` at a concrete sanitized
input: camp type `jodo` with wants-exam-Iaido set produces the Iaido conflict
message. -/
theorem validateRegistration_grade_exam_rules_witness :
    "Iaido exam can only be selected with Iaido or Iaido + Jodo participation."
      ∈ validateRegistration
          ⟨"John Doe", "john@example.com", "+3611234567", "", "Budapest",
           "1 dan", "1 dan", "jodo", "none", "none",
           true, "2 dan", false, "",
           "John Doe", "1111", "Budapest", "Street 1", "Hungary", "",
           true, true⟩ :=
  (validateRegistration_grade_exam_rules _).1.mpr ⟨rfl, rfl⟩

/-- Helper: `toEnumValue` always lands in the option table when the fallback
does. -/
theorem toEnumValue_valid (v fb : String) (allowed : List PriceEntry)
    (hfb : allowed.any (fun e => e.code == fb) = true) :
    allowed.any (fun e => e.code == toEnumValue v allowed fb) = true := by
  unfold toEnumValue
  by_cases h : allowed.any (fun e => e.code == jsTrim v) = true
  · simpa [h] using h
  · simp only [Bool.not_eq_true] at h
    simp [h, hfb]

/-- C10: the sanitizer always outputs campType, mealPlan and accommodation
from the valid enumerated code sets, so for any raw payload the validator's
"Invalid seminar selection.", "Invalid meal option." and "Invalid
accommodation option." branches are unreachable. -/
theorem sanitizePayload_enum_branches_unreachable (payload : RawPayload) :
    "Invalid seminar selection." ∉ validateRegistration (sanitizePayload payload)
    ∧ "Invalid meal option." ∉ validateRegistration (sanitizePayload payload)
    ∧ "Invalid accommodation option." ∉ validateRegistration (sanitizePayload payload) := by
  have hc : campTypeOptions.any
      (fun e => e.code == (sanitizePayload payload).campType) = true := by
    simpa [sanitizePayload] using
      toEnumValue_valid payload.campType "iaido" campTypeOptions (by decide)
  have hm : mealPlanOptions.any
      (fun e => e.code == (sanitizePayload payload).mealPlan) = true := by
    simpa [sanitizePayload] using
      toEnumValue_valid payload.mealPlan "none" mealPlanOptions (by decide)
  have ha : accommodationOptions.any
      (fun e => e.code == (sanitizePayload payload).accommodation) = true := by
    simpa [sanitizePayload] using
      toEnumValue_valid payload.accommodation "none" accommodationOptions (by decide)
  refine ⟨?_, ?_, ?_⟩
  all_goals
    simp [validateRegistration, mem_check, List.mem_append, hc, hm, ha]

/-! ### Registration store rows and admin operations (server.js:
updateRegistrationStatus, anonymizeRegistration) -/

/-- One row of the `registrations` table (all 35 columns of the final schema).
TEXT columns are strings (the admin operations never store NULL), INTEGER
columns are `Int`, and the `price_breakdown` JSON text is modelled by the
structured value it serializes. -/
structure Row where
  id : String
  created_at : String
  status : String
  amount_huf : Int
  currency : String
  full_name : String
  email : String
  phone : String
  date_of_birth : String
  city : String
  current_grade : String
  current_grade_iaido : String
  current_grade_jodo : String
  camp_type : String
  meal_plan : String
  accommodation : String
  wants_exam : Int
  target_grade : String
  wants_exam_iaido : Int
  target_grade_iaido : String
  wants_exam_jodo : Int
  target_grade_jodo : String
  billing_full_name : String
  billing_zip : String
  billing_city : String
  billing_address : String
  billing_country : String
  food_notes : String
  price_breakdown : Pricing
  privacy_consent : Int
  terms_consent : Int
  privacy_policy_version : String
  terms_version : String
  privacy_consent_at : String
  terms_consent_at : String
deriving DecidableEq

/-- Effect of `UPDATE registrations SET status = ? WHERE id = ?` on one row. -/
def updateStatusRow (registrationId status : String) (row : Row) : Row :=
  if row.id == registrationId then { row with status := status } else row

/-- `updateRegistrationStatus(db, registrationId, status)`: update the status
column of every matching row and return the number of changed rows. -/
def updateRegistrationStatus (store : List Row) (registrationId status : String) :
    List Row × Nat :=
  (store.map (updateStatusRow registrationId status),
   (store.filter (fun row => row.id == registrationId)).length)

/-- Effect of the anonymize UPDATE on one row. -/
def anonymizeRow (registrationId : String) (row : Row) : Row :=
  if row.id == registrationId then
    { row with
      status := "ANONYMIZED"
      full_name := "ANONYMIZED"
      email := "anonymized-" ++ registrationId ++ "@example.invalid"
      phone := ""
      date_of_birth := ""
      city := ""
      billing_full_name := ""
      billing_zip := ""
      billing_city := ""
      billing_address := ""
      billing_country := ""
      food_notes := "" }
  else row

/-- `anonymizeRegistration(db, registrationId)`. -/
def anonymizeRegistration (store : List Row) (registrationId : String) :
    List Row × Nat :=
  (store.map (anonymizeRow registrationId),
   (store.filter (fun row => row.id == registrationId)).length)

/-- The admin mutations reachable through the HTTP surface: the mark-deleted
endpoint calls `updateRegistrationStatus(db, id, 'DELETED')` and the anonymize
endpoint calls `anonymizeRegistration(db, id)`. -/
inductive AdminOp where
  | markDeleted (registrationId : String)
  | anonymize (registrationId : String)
deriving DecidableEq

/-- Effect of one admin operation on one row. -/
def applyAdminOpRow (op : AdminOp) (row : Row) : Row :=
  match op with
  | AdminOp.markDeleted registrationId => updateStatusRow registrationId "DELETED" row
  | AdminOp.anonymize registrationId => anonymizeRow registrationId row

/-- Effect of one admin operation on the store. -/
def applyAdminOp (op : AdminOp) (store : List Row) : List Row :=
  match op with
  | AdminOp.markDeleted registrationId =>
    (updateRegistrationStatus store registrationId "DELETED").1
  | AdminOp.anonymize registrationId => (anonymizeRegistration store registrationId).1

/-- Effect of a sequence of admin operations on one row. -/
def applyAdminOpsRow (ops : List AdminOp) (row : Row) : Row :=
  ops.foldl (fun r op => applyAdminOpRow op r) row

/-- Effect of a sequence of admin operations on the store. -/
def applyAdminOps (ops : List AdminOp) (store : List Row) : List Row :=
  ops.foldl (fun s op => applyAdminOp op s) store

/-- C5: the anonymize operation on a matching row replaces the full name and
email by synthetic placeholders, clears phone, date of birth, city, the whole
billing block and the food note, and leaves every other column — id,
created_at, camp type, meal plan, accommodation, amount, currency, price
breakdown, the grade/exam columns and the consent columns — unchanged; a
non-matching row is wholly unchanged; and neither admin operation ever changes
a row's id or created_at (the status update changes only the status column). -/
theorem anonymizeRow_frame (registrationId : String) (row : Row) :
    (row.id = registrationId →
      (anonymizeRow registrationId row).status = "ANONYMIZED"
      ∧ (anonymizeRow registrationId row).full_name = "ANONYMIZED"
      ∧ (anonymizeRow registrationId row).email =
          "anonymized-" ++ registrationId ++ "@example.invalid"
      ∧ (anonymizeRow registrationId row).phone = ""
      ∧ (anonymizeRow registrationId row).date_of_birth = ""
      ∧ (anonymizeRow registrationId row).city = ""
      ∧ (anonymizeRow registrationId row).billing_full_name = ""
      ∧ (anonymizeRow registrationId row).billing_zip = ""
      ∧ (anonymizeRow registrationId row).billing_city = ""
      ∧ (anonymizeRow registrationId row).billing_address = ""
      ∧ (anonymizeRow registrationId row).billing_country = ""
      ∧ (anonymizeRow registrationId row).food_notes = "")
    ∧ (anonymizeRow registrationId row).id = row.id
    ∧ (anonymizeRow registrationId row).created_at = row.created_at
    ∧ (anonymizeRow registrationId row).amount_huf = row.amount_huf
    ∧ (anonymizeRow registrationId row).currency = row.currency
    ∧ (anonymizeRow registrationId row).current_grade = row.current_grade
    ∧ (anonymizeRow registrationId row).current_grade_iaido = row.current_grade_iaido
    ∧ (anonymizeRow registrationId row).current_grade_jodo = row.current_grade_jodo
    ∧ (anonymizeRow registrationId row).camp_type = row.camp_type
    ∧ (anonymizeRow registrationId row).meal_plan = row.meal_plan
    ∧ (anonymizeRow registrationId row).accommodation = row.accommodation
    ∧ (anonymizeRow registrationId row).wants_exam = row.wants_exam
    ∧ (anonymizeRow registrationId row).target_grade = row.target_grade
    ∧ (anonymizeRow registrationId row).wants_exam_iaido = row.wants_exam_iaido
    ∧ (anonymizeRow registrationId row).target_grade_iaido = row.target_grade_iaido
    ∧ (anonymizeRow registrationId row).wants_exam_jodo = row.wants_exam_jodo
    ∧ (anonymizeRow registrationId row).target_grade_jodo = row.target_grade_jodo
    ∧ (anonymizeRow registrationId row).price_breakdown = row.price_breakdown
    ∧ (anonymizeRow registrationId row).privacy_consent = row.privacy_consent
    ∧ (anonymizeRow registrationId row).terms_consent = row.terms_consent
    ∧ (anonymizeRow registrationId row).privacy_policy_version = row.privacy_policy_version
    ∧ (anonymizeRow registrationId row).terms_version = row.terms_version
    ∧ (anonymizeRow registrationId row).privacy_consent_at = row.privacy_consent_at
    ∧ (anonymizeRow registrationId row).terms_consent_at = row.terms_consent_at
    ∧ (row.id ≠ registrationId → anonymizeRow registrationId row = row)
    ∧ (∀ status : String,
        (updateStatusRow registrationId status row).id = row.id
        ∧ (updateStatusRow registrationId status row).created_at = row.created_at
        ∧ (updateStatusRow registrationId status row).full_name = row.full_name
        ∧ (updateStatusRow registrationId status row).email = row.email
        ∧ (updateStatusRow registrationId status row).amount_huf = row.amount_huf
        ∧ (updateStatusRow registrationId status row).price_breakdown = row.price_breakdown) := by
  by_cases h : row.id == registrationId
  · refine ⟨fun _ => ?_, ?_⟩
    · simp [anonymizeRow, h]
    · refine ⟨?_, ?_, ?_, ?_, ?_, ?_, ?_, ?_, ?_, ?_, ?_, ?_, ?_, ?_, ?_, ?_, ?_,
        ?_, ?_, ?_, ?_, ?_, ?_, ?_, ?_⟩ <;>
        simp [anonymizeRow, updateStatusRow, h] <;>
        first
          | rfl
          | (intro hne; exact absurd (by simpa using h) hne)
  · have hne : ¬ row.id = registrationId := by simpa using h
    refine ⟨fun heq => absurd heq hne, ?_⟩
    refine ⟨?_, ?_, ?_, ?_, ?_, ?_, ?_, ?_, ?_, ?_, ?_, ?_, ?_, ?_, ?_, ?_, ?_,
        ?_, ?_, ?_, ?_, ?_, ?_, ?_, ?_⟩ <;>
      simp [anonymizeRow, updateStatusRow, h]

/-- Witness for `anonymizeRow_frame` at a concrete matching row. -/
theorem anonymizeRow_frame_witness :
    (anonymizeRow "reg_w"
        ⟨"reg_w", "2026-03-01T00:00:00.000Z", "PAID", 149, "EUR", "Jane Doe",
         "jane@example.com", "+3611234567", "1990-01-01", "Budapest",
         "1 dan", "1 dan", "", "iaido", "none", "none", 0, "", 0, "", 0, "",
         "Jane Doe", "1111", "Budapest", "Street 1", "Hungary", "gluten free",
         ⟨⟨"iaido", "none", "none"⟩, [], 149, "EUR"⟩, 1, 1,
         "2026-02-26", "2026-02-26", "t1", "t2"⟩).full_name = "ANONYMIZED" :=
  ((anonymizeRow_frame "reg_w" _).1 rfl).2.1

/-- C1 (amended): every admin operation either leaves a row's status unchanged
or sets it to DELETED or ANONYMIZED — in particular no sequence of operations
ever gives any row the status PAID or PENDING_PAYMENT unless it already had
it, and a row whose status is DELETED or ANONYMIZED keeps a status in that
two-element set forever.  (The two terminal statuses are however mutually
reachable, see the counterexample.) -/
theorem adminOps_status_monotone (ops : List AdminOp) (row : Row) :
    ((applyAdminOpsRow ops row).status = row.status
      ∨ (applyAdminOpsRow ops row).status = "DELETED"
      ∨ (applyAdminOpsRow ops row).status = "ANONYMIZED")
    ∧ (row.status = "DELETED" ∨ row.status = "ANONYMIZED" →
        (applyAdminOpsRow ops row).status = "DELETED"
        ∨ (applyAdminOpsRow ops row).status = "ANONYMIZED") := by
  induction ops generalizing row with
  | nil => exact ⟨Or.inl rfl, fun h => h⟩
  | cons op rest ih =>
    have hstep : (applyAdminOpRow op row).status = row.status
        ∨ (applyAdminOpRow op row).status = "DELETED"
        ∨ (applyAdminOpRow op row).status = "ANONYMIZED" := by
      cases op with
      | markDeleted registrationId =>
        by_cases h : row.id == registrationId <;>
          simp [applyAdminOpRow, updateStatusRow, h]
      | anonymize registrationId =>
        by_cases h : row.id == registrationId <;>
          simp [applyAdminOpRow, anonymizeRow, h]
    have hrec := ih (applyAdminOpRow op row)
    have hall : applyAdminOpsRow (op :: rest) row =
        applyAdminOpsRow rest (applyAdminOpRow op row) := rfl
    constructor
    · rw [hall]
      rcases hrec.1 with h1 | h1 | h1
      · rw [h1]
        exact hstep
      · exact Or.inr (Or.inl h1)
      · exact Or.inr (Or.inr h1)
    · intro hterm
      rw [hall]
      refine hrec.2 ?_
      rcases hstep with h1 | h1 | h1
      · rw [h1]
        exact hterm
      · exact Or.inl h1
      · exact Or.inr h1

/-- Witness for `adminOps_status_monotone`: a DELETED row keeps a terminal
status across a mark-deleted followed by an anonymize. -/
theorem adminOps_status_monotone_witness :
    (applyAdminOpsRow [AdminOp.markDeleted "reg_m", AdminOp.anonymize "reg_m"]
        ⟨"reg_m", "2026-03-01T00:00:00.000Z", "DELETED", 149, "EUR", "Jane Doe",
         "jane@example.com", "+3611234567", "1990-01-01", "Budapest",
         "1 dan", "1 dan", "", "iaido", "none", "none", 0, "", 0, "", 0, "",
         "Jane Doe", "1111", "Budapest", "Street 1", "Hungary", "gluten free",
         ⟨⟨"iaido", "none", "none"⟩, [], 149, "EUR"⟩, 1, 1,
         "2026-02-26", "2026-02-26", "t1", "t2"⟩).status = "DELETED"
    ∨ (applyAdminOpsRow [AdminOp.markDeleted "reg_m", AdminOp.anonymize "reg_m"]
        ⟨"reg_m", "2026-03-01T00:00:00.000Z", "DELETED", 149, "EUR", "Jane Doe",
         "jane@example.com", "+3611234567", "1990-01-01", "Budapest",
         "1 dan", "1 dan", "", "iaido", "none", "none", 0, "", 0, "", 0, "",
         "Jane Doe", "1111", "Budapest", "Street 1", "Hungary", "gluten free",
         ⟨⟨"iaido", "none", "none"⟩, [], 149, "EUR"⟩, 1, 1,
         "2026-02-26", "2026-02-26", "t1", "t2"⟩).status = "ANONYMIZED" :=
  (adminOps_status_monotone [AdminOp.markDeleted "reg_m", AdminOp.anonymize "reg_m"] _).2
    (Or.inl rfl)

/-- A concrete store row in status DELETED, used by the C1 counterexample. -/
def sampleDeletedRow : Row :=
  ⟨"reg_1", "2026-01-01T00:00:00.000Z", "DELETED", 149, "EUR", "John Doe",
   "john@example.com", "+3611234567", "", "Budapest",
   "1 dan", "1 dan", "", "iaido", "none", "none", 0, "", 0, "", 0, "",
   "John Doe", "1111", "Budapest", "Street 1", "Hungary", "",
   ⟨⟨"iaido", "none", "none"⟩, [], 149, "EUR"⟩, 1, 1,
   "2026-02-26", "2026-02-26", "t1", "t2"⟩

/-- Counterexample to C1 as stated: DELETED is not terminal — applying the
admin anonymize operation to a store holding a registration whose status is
DELETED changes that registration's status to ANONYMIZED. -/
theorem deleted_not_terminal_counterexample :
    sampleDeletedRow.status = "DELETED"
    ∧ (applyAdminOps [AdminOp.anonymize "reg_1"] [sampleDeletedRow]).map Row.status
        = ["ANONYMIZED"]
    ∧ ("ANONYMIZED" : String) ≠ "DELETED" := by
  refine ⟨rfl, rfl, by decide⟩

/-! ### One-time legacy flat-file import (server.js: migrateLegacyJsonIfNeeded) -/

/-- JavaScript `a || b` on strings: the empty string is falsy. -/
def orElseStr (a b : String) : String :=
  if a == "" then b else a

/-- One record of the legacy `registrations.json` array.  Fields read through
`x || default` are plain strings (absence behaves as `""`); the `??` reads
keep an `Option`; `item.amountHuf` is a number where 0 is falsy. -/
structure LegacyItem where
  id : String
  createdAt : String
  status : String
  amountHuf : Int
  currency : String
  fullName : String
  email : String
  phone : String
  dateOfBirth : String
  city : String
  currentGradeIaido : String
  currentGrade : String
  currentGradeJodo : String
  campType : String
  mealPlan : String
  accommodation : String
  wantsExamIaido : Option Bool
  wantsExam : Option Bool
  wantsExamJodo : Bool
  targetGradeIaido : String
  targetGrade : String
  targetGradeJodo : String
  billingFullName : String
  billingZip : String
  billingCity : String
  billingAddress : String
  billingCountry : String
  foodNotes : String
  privacyConsent : Bool
  termsConsent : Bool
  privacyPolicyVersion : String
  termsVersion : String
  privacyConsentAt : String
  termsConsentAt : String
deriving DecidableEq

/-- The loop body of `migrateLegacyJsonIfNeeded`: derive the discipline-split
and combined fields of one legacy item and build the row handed to the INSERT.
`freshId` stands for `reg_${randomUUID()}` and `now` for
`new Date().toISOString()`, used only when the legacy field is absent. -/
def convertLegacyItem (freshId now : String) (item : LegacyItem) : Row :=
  let pricing := calculatePricing
    ⟨orElseStr item.campType "iaido", orElseStr item.mealPlan "none",
     orElseStr item.accommodation "none"⟩
  let wantsExamIaido := ((item.wantsExamIaido).orElse (fun _ => item.wantsExam)).getD false
  let wantsExamJodo := item.wantsExamJodo
  let currentGradeIaido := orElseStr item.currentGradeIaido item.currentGrade
  let currentGradeJodo := item.currentGradeJodo
  let currentGradeLegacy := orElseStr currentGradeIaido currentGradeJodo
  let targetGradeIaido :=
    if wantsExamIaido then orElseStr item.targetGradeIaido item.targetGrade else ""
  let targetGradeJodo := if wantsExamJodo then item.targetGradeJodo else ""
  let wantsExamCombined := wantsExamIaido || wantsExamJodo
  let targetGradeCombined := orElseStr targetGradeIaido targetGradeJodo
  { id := orElseStr item.id freshId
    created_at := orElseStr item.createdAt now
    status := orElseStr item.status "PENDING_PAYMENT"
    amount_huf := if item.amountHuf == 0 then Int.ofNat pricing.totalHuf else item.amountHuf
    currency := orElseStr item.currency pricing.currency
    full_name := item.fullName
    email := item.email
    phone := item.phone
    date_of_birth := item.dateOfBirth
    city := item.city
    current_grade := currentGradeLegacy
    current_grade_iaido := currentGradeIaido
    current_grade_jodo := currentGradeJodo
    camp_type := pricing.selection.campType
    meal_plan := pricing.selection.mealPlan
    accommodation := pricing.selection.accommodation
    wants_exam := if wantsExamCombined then 1 else 0
    target_grade := targetGradeCombined
    wants_exam_iaido := if wantsExamIaido then 1 else 0
    target_grade_iaido := targetGradeIaido
    wants_exam_jodo := if wantsExamJodo then 1 else 0
    target_grade_jodo := targetGradeJodo
    billing_full_name := item.billingFullName
    billing_zip := item.billingZip
    billing_city := item.billingCity
    billing_address := item.billingAddress
    billing_country := orElseStr item.billingCountry "Hungary"
    food_notes := item.foodNotes
    price_breakdown := pricing
    privacy_consent := if item.privacyConsent then 1 else 0
    terms_consent := if item.termsConsent then 1 else 0
    privacy_policy_version := item.privacyPolicyVersion
    terms_version := item.termsVersion
    privacy_consent_at := item.privacyConsentAt
    terms_consent_at := item.termsConsentAt }

/-- One `insert.run(...)`: a SQLite INSERT into a table whose PRIMARY KEY is
`id` fails (throws) when the id is already present, otherwise appends. -/
def insertRowChecked (store : List Row) (row : Row) : Option (List Row) :=
  if store.any (fun r => r.id == row.id) then none else some (store ++ [row])

/-- The `for (const item of legacy)` insert loop inside the transaction; `none`
means some insert threw.  `freshIds` supplies a fresh id per loop index. -/
def insertLegacyBatch (freshIds : Nat → String) (now : String) :
    List LegacyItem → Nat → List Row → Option (List Row)
  | [], _, store => some store
  | item :: rest, idx, store =>
    match insertRowChecked store (convertLegacyItem (freshIds idx) now item) with
    | none => none
    | some store2 => insertLegacyBatch freshIds now rest (idx + 1) store2

/-- The converted rows of a legacy array, in order, with their loop indices. -/
def convertAllLegacy (freshIds : Nat → String) (now : String) :
    List LegacyItem → Nat → List Row
  | [], _ => []
  | item :: rest, idx =>
    convertLegacyItem (freshIds idx) now item :: convertAllLegacy freshIds now rest (idx + 1)

/-- `migrateLegacyJsonIfNeeded(db)`: skip when the legacy file is missing, when
the table already holds a row, or when the parsed legacy array is empty
(`parsed = none` models a JSON parse failure or a non-array, which the source
maps to the empty array); otherwise insert every legacy row inside a single
transaction, and on any row failure roll back (the store keeps its prior
contents) and raise the fatal startup error. -/
def migrateLegacyJsonIfNeeded (freshIds : Nat → String) (now : String)
    (fileExists : Bool) (parsed : Option (List LegacyItem)) (store : List Row) :
    Except String (List Row) :=
  if !fileExists then Except.ok store
  else if decide (0 < store.length) then Except.ok store
  else
    let legacy := parsed.getD []
    if legacy.isEmpty then Except.ok store
    else
      match insertLegacyBatch freshIds now legacy 0 store with
      | some newStore => Except.ok newStore
      | none => Except.error "Legacy JSON migration failed."

/-- A successful batch run inserts exactly the converted rows, in order, after
the prior contents. -/
theorem insertLegacyBatch_ok (freshIds : Nat → String) (now : String) :
    ∀ (items : List LegacyItem) (idx : Nat) (store out : List Row),
      insertLegacyBatch freshIds now items idx store = some out →
      out = store ++ convertAllLegacy freshIds now items idx := by
  intro items
  induction items with
  | nil =>
    intro idx store out h
    simp [insertLegacyBatch] at h
    simp [convertAllLegacy, ← h]
  | cons item rest ih =>
    intro idx store out h
    simp only [insertLegacyBatch, insertRowChecked] at h
    by_cases hdup : store.any
        (fun r => r.id == (convertLegacyItem (freshIds idx) now item).id)
    · simp [hdup] at h
    · simp only [hdup, Bool.false_eq_true, if_false] at h
      have := ih (idx + 1) (store ++ [convertLegacyItem (freshIds idx) now item]) out h
      simp [this, convertAllLegacy]

/-- C3: the legacy import runs only when the legacy file exists and the store
is empty — a missing file or a store with at least one row leaves the store
untouched and succeeds; and the import is all-or-nothing: a successful run
either left the store untouched (skip cases) or appended exactly the converted
legacy rows, while a row failure yields precisely the fatal
"Legacy JSON migration failed." startup error, with the transaction rolled
back so the store keeps zero imported rows. -/
theorem migrateLegacyJsonIfNeeded_spec (freshIds : Nat → String) (now : String)
    (fileExists : Bool) (parsed : Option (List LegacyItem)) (store : List Row) :
    (fileExists = false →
      migrateLegacyJsonIfNeeded freshIds now fileExists parsed store = Except.ok store)
    ∧ (store ≠ [] →
      migrateLegacyJsonIfNeeded freshIds now fileExists parsed store = Except.ok store)
    ∧ (∀ out, migrateLegacyJsonIfNeeded freshIds now fileExists parsed store = Except.ok out →
        out = store ∨
        (fileExists = true ∧ store = [] ∧
          out = convertAllLegacy freshIds now (parsed.getD []) 0))
    ∧ (∀ msg, migrateLegacyJsonIfNeeded freshIds now fileExists parsed store = Except.error msg →
        msg = "Legacy JSON migration failed." ∧ fileExists = true ∧ store = [] ∧
        insertLegacyBatch freshIds now (parsed.getD []) 0 store = none) := by
  refine ⟨?_, ?_, ?_, ?_⟩
  · intro h
    simp [migrateLegacyJsonIfNeeded, h]
  · intro h
    have hlen : 0 < store.length := List.length_pos.mpr h
    cases fileExists with
    | false => simp [migrateLegacyJsonIfNeeded]
    | true => simp [migrateLegacyJsonIfNeeded, hlen]
  · intro out h
    cases fileExists with
    | false =>
      simp [migrateLegacyJsonIfNeeded] at h
      exact Or.inl h.symm
    | true =>
      by_cases hlen : 0 < store.length
      · simp [migrateLegacyJsonIfNeeded, hlen] at h
        exact Or.inl h.symm
      · have hstore : store = [] := by
          cases store with
          | nil => rfl
          | cons a l => simp at hlen
        subst hstore
        by_cases hemp : (parsed.getD []).isEmpty
        · simp [migrateLegacyJsonIfNeeded, hemp] at h
          exact Or.inl h
        · simp only [migrateLegacyJsonIfNeeded, Bool.not_false, if_true, List.length_nil,
            decide_eq_true_eq, lt_self_iff_false, if_false, hemp, Bool.false_eq_true] at h
          cases hrun : insertLegacyBatch freshIds now (parsed.getD []) 0 [] with
          | none => rw [hrun] at h; exact absurd h (by simp)
          | some newStore =>
            rw [hrun] at h
            simp at h
            refine Or.inr ⟨rfl, rfl, ?_⟩
            have := insertLegacyBatch_ok freshIds now (parsed.getD []) 0 [] newStore hrun
            simp [← h, this]
  · intro msg h
    cases fileExists with
    | false => simp [migrateLegacyJsonIfNeeded] at h
    | true =>
      by_cases hlen : 0 < store.length
      · simp [migrateLegacyJsonIfNeeded, hlen] at h
      · have hstore : store = [] := by
          cases store with
          | nil => rfl
          | cons a l => simp at hlen
        subst hstore
        by_cases hemp : (parsed.getD []).isEmpty
        · simp [migrateLegacyJsonIfNeeded, hemp] at h
        · simp only [migrateLegacyJsonIfNeeded, Bool.not_false, if_true, List.length_nil,
            decide_eq_true_eq, lt_self_iff_false, if_false, hemp, Bool.false_eq_true] at h
          cases hrun : insertLegacyBatch freshIds now (parsed.getD []) 0 [] with
          | none =>
            rw [hrun] at h
            simp at h
            exact ⟨h.symm, rfl, rfl, rfl⟩
          | some newStore =>
            rw [hrun] at h
            exact absurd h (by simp)

/-- A concrete pre-existing store row, used by the C3 witness. -/
def sampleSkipRow : Row :=
  ⟨"reg_2", "2026-01-02T00:00:00.000Z", "PENDING_PAYMENT", 149, "EUR", "Ann Doe",
   "ann@example.com", "+3611234567", "", "Budapest",
   "1 dan", "1 dan", "", "iaido", "none", "none", 0, "", 0, "", 0, "",
   "Ann Doe", "1111", "Budapest", "Street 1", "Hungary", "",
   ⟨⟨"iaido", "none", "none"⟩, [], 149, "EUR"⟩, 1, 1,
   "2026-02-26", "2026-02-26", "t1", "t2"⟩

/-- Witness for `migrateLegacyJsonIfNeeded_spec`: with the legacy file present
but one row already stored, the import is skipped. -/
theorem migrateLegacyJsonIfNeeded_spec_witness :
    migrateLegacyJsonIfNeeded (fun _ => "reg_f") "2026-03-01T00:00:00.000Z" true
        (some []) [sampleSkipRow]
      = Except.ok [sampleSkipRow] :=
  (migrateLegacyJsonIfNeeded_spec (fun _ => "reg_f") "2026-03-01T00:00:00.000Z" true
      (some []) [sampleSkipRow]).2.1 (by simp)

/-! ### CSV export (server.js: escapeCsvValue, buildCsvExport) -/

/-- The test `/[",\n\r]/.test(stringValue)`. -/
def hasCsvSpecial (value : String) : Bool :=
  value.data.any fun c => c == '"' || c == ',' || c == '\n' || c == '\r'

/-- `stringValue.replace(/"/g, '""')`: double every double quote. -/
def escQuotes : List Char → List Char
  | [] => []
  | c :: rest => if c == '"' then '"' :: '"' :: escQuotes rest else c :: escQuotes rest

/-- `escapeCsvValue(value)`: wrap in quotes with internal quotes doubled when
the value contains a comma, quote, or line break, otherwise emit verbatim. -/
def escapeCsvValue (value : String) : String :=
  if hasCsvSpecial value then "\"" ++ String.mk (escQuotes value.data) ++ "\""
  else value

/-- The registration object shape produced by `mapRegistrationRow` and consumed
by `buildCsvExport`; `priceBreakdown` is `none` when the stored JSON failed to
parse. -/
structure Registration where
  id : String
  createdAt : String
  status : String
  amountHuf : Int
  currency : String
  fullName : String
  email : String
  phone : String
  dateOfBirth : String
  city : String
  currentGradeIaido : String
  currentGradeJodo : String
  currentGrade : String
  campType : String
  mealPlan : String
  accommodation : String
  wantsExamIaido : Bool
  targetGradeIaido : String
  wantsExamJodo : Bool
  targetGradeJodo : String
  wantsExam : Bool
  targetGrade : String
  billingFullName : String
  billingZip : String
  billingCity : String
  billingAddress : String
  billingCountry : String
  foodNotes : String
  priceBreakdown : Option Pricing
  privacyConsent : Bool
  termsConsent : Bool
  privacyPolicyVersion : String
  termsVersion : String
  privacyConsentAt : String
  termsConsentAt : String
deriving DecidableEq

/-- The fixed CSV header row. -/
def csvHeaders : List String :=
  ["id", "created_at", "status", "full_name", "email", "phone", "city",
   "current_grade_iaido", "current_grade_jodo", "camp_type", "meal_plan",
   "accommodation", "wants_exam_iaido", "target_grade_iaido", "wants_exam_jodo",
   "target_grade_jodo", "camp_price_eur", "meal_price_eur",
   "accommodation_price_eur", "amount_eur", "currency", "billing_full_name",
   "billing_zip", "billing_city", "billing_address", "billing_country",
   "food_notes", "privacy_consent", "terms_consent", "privacy_policy_version",
   "terms_version", "privacy_consent_at", "terms_consent_at"]

/-- `lineItems.find(item => item.key === key)?.amountHuf ?? ''`, rendered as the
string the row array carries. -/
def lineItemAmountCell (priceBreakdown : Option Pricing) (key : String) : String :=
  match priceBreakdown with
  | none => ""
  | some p =>
    match p.lineItems.find? (fun item => item.key == key) with
    | none => ""
    | some item => toString item.amountHuf

/-- The 33 cells of one export row, in source order. -/
def buildCsvRow (registration : Registration) : List String :=
  [registration.id,
   registration.createdAt,
   registration.status,
   registration.fullName,
   registration.email,
   registration.phone,
   registration.city,
   registration.currentGradeIaido,
   registration.currentGradeJodo,
   registration.campType,
   registration.mealPlan,
   registration.accommodation,
   if registration.wantsExamIaido then "true" else "false",
   registration.targetGradeIaido,
   if registration.wantsExamJodo then "true" else "false",
   registration.targetGradeJodo,
   lineItemAmountCell registration.priceBreakdown "campType",
   lineItemAmountCell registration.priceBreakdown "mealPlan",
   lineItemAmountCell registration.priceBreakdown "accommodation",
   toString registration.amountHuf,
   registration.currency,
   registration.billingFullName,
   registration.billingZip,
   registration.billingCity,
   registration.billingAddress,
   registration.billingCountry,
   registration.foodNotes,
   if registration.privacyConsent then "true" else "false",
   if registration.termsConsent then "true" else "false",
   registration.privacyPolicyVersion,
   registration.termsVersion,
   registration.privacyConsentAt,
   registration.termsConsentAt]

/-- `list.join(sep)`. -/
def joinSep (sep : String) : List String → String
  | [] => ""
  | [x] => x
  | x :: y :: rest => x ++ sep ++ joinSep sep (y :: rest)

/-- The byte-order mark `﻿`. -/
def bomChar : Char := Char.ofNat 0xFEFF

/-- `buildCsvExport(registrations)`: header row plus one escaped row per
registration, joined by newlines, behind a byte-order-mark prefix. -/
def buildCsvExport (registrations : List Registration) : String :=
  let headerRow := joinSep "," (csvHeaders.map escapeCsvValue)
  let csvRows := headerRow ::
    registrations.map (fun r => joinSep "," ((buildCsvRow r).map escapeCsvValue))
  String.mk [bomChar] ++ joinSep "\n" csvRows ++ "\n"

/-- Collapse doubled double quotes, used by the standard CSV reader below. -/
def unescQuotes : List Char → List Char
  | [] => []
  | [c] => [c]
  | c :: d :: rest =>
    if c == '"' && d == '"' then '"' :: unescQuotes rest
    else c :: unescQuotes (d :: rest)

/-- Modelled from the spec: "standard CSV parsing" of one exported field — a
field wrapped in double quotes is read by stripping the outer quotes and
collapsing each doubled internal quote; any other field is read verbatim. -/
def parseCsvField (s : String) : String :=
  match s.data with
  | [] => s
  | c :: rest =>
    if c == '"' && rest.getLast? == some '"' then String.mk (unescQuotes rest.dropLast)
    else s

/-- Unescaping undoes quote doubling. -/
theorem unescQuotes_escQuotes : ∀ l : List Char, unescQuotes (escQuotes l) = l := by
  intro l
  induction l with
  | nil => rfl
  | cons c rest ih =>
    by_cases h : c = '"'
    · subst h
      simp [escQuotes, unescQuotes, ih]
    · have hb : (c == '"') = false := by simp [h]
      simp only [escQuotes, hb, Bool.false_eq_true, if_false]
      cases hr : escQuotes rest with
      | nil =>
        rw [hr] at ih
        simp [unescQuotes, ← ih]
      | cons d ds =>
        rw [hr] at ih
        simp [unescQuotes, hb, ih]

/-- C8: every field value containing a comma, double quote, or newline is
exported wrapped in double quotes with internal quotes doubled, values without
those characters are emitted verbatim, and in both cases standard CSV reading
of the exported field recovers the original string; the export string begins
with the byte-order mark. -/
theorem escapeCsvValue_roundtrip (v : String) :
    parseCsvField (escapeCsvValue v) = v
    ∧ (hasCsvSpecial v = true →
        escapeCsvValue v = "\"" ++ String.mk (escQuotes v.data) ++ "\"")
    ∧ (hasCsvSpecial v = false → escapeCsvValue v = v)
    ∧ (∀ registrations : List Registration,
        (buildCsvExport registrations).data.head? = some bomChar) := by
  refine ⟨?_, ?_, ?_, ?_⟩
  · by_cases hs : hasCsvSpecial v
    · have hesc : escapeCsvValue v = "\"" ++ String.mk (escQuotes v.data) ++ "\"" := by
        simp [escapeCsvValue, hs]
      have hdata : (escapeCsvValue v).data = '"' :: (escQuotes v.data ++ ['"']) := by
        rw [hesc]
        show ("\"".data ++ escQuotes v.data) ++ "\"".data = _
        simp
      unfold parseCsvField
      rw [hdata]
      simp [unescQuotes_escQuotes]
    · have hesc : escapeCsvValue v = v := by
        simp only [Bool.not_eq_true] at hs
        simp [escapeCsvValue, hs]
      rw [hesc]
      unfold parseCsvField
      cases hv : v.data with
      | nil => rfl
      | cons c rest =>
        have hc : (c == '"') = false := by
          by_cases hceq : c = '"'
          · exfalso
            apply hs
            simp [hasCsvSpecial, hv, hceq]
          · simp [hceq]
        simp [hc]
  · intro h
    simp [escapeCsvValue, h]
  · intro h
    simp [escapeCsvValue, h]
  · intro registrations
    rfl

/-- Witness for `escapeCsvValue_roundtrip` at the spec's example value
`Smith, John`: the exported field is the quoted form and reads back to the
original. -/
theorem escapeCsvValue_roundtrip_witness :
    parseCsvField (escapeCsvValue "Smith, John") = "Smith, John"
    ∧ escapeCsvValue "Smith, John"
        = "\"" ++ String.mk (escQuotes "Smith, John".data) ++ "\"" :=
  ⟨(escapeCsvValue_roundtrip "Smith, John").1,
   (escapeCsvValue_roundtrip "Smith, John").2.1 (by decide)⟩

/-! ### Idempotent schema migration (server.js: ensureRegistrationColumns) -/

/-- A SQLite cell value as the migration sees it: TEXT, INTEGER or NULL. -/
inductive SqlVal where
  | text (s : String)
  | int (n : Int)
  | null
deriving DecidableEq

/-- `COALESCE(v, '')`. -/
def coalesceEmpty (v : SqlVal) : SqlVal :=
  match v with
  | SqlVal.null => SqlVal.text ""
  | x => x

/-- The columns of a `registrations` row that `ensureRegistrationColumns`
reads, writes, or adds (the other columns are untouched by it). -/
structure MigRow where
  current_grade : SqlVal
  wants_exam : SqlVal
  target_grade : SqlVal
  camp_type : SqlVal
  meal_plan : SqlVal
  accommodation : SqlVal
  price_breakdown : SqlVal
  current_grade_iaido : SqlVal
  current_grade_jodo : SqlVal
  wants_exam_iaido : SqlVal
  target_grade_iaido : SqlVal
  wants_exam_jodo : SqlVal
  target_grade_jodo : SqlVal
  privacy_policy_version : SqlVal
  terms_version : SqlVal
  privacy_consent_at : SqlVal
  terms_consent_at : SqlVal
deriving DecidableEq

/-- The migration's view of the store: the column names present in the schema
(`PRAGMA table_info`) and the rows. -/
structure DbState where
  columns : List String
  rows : List MigRow
deriving DecidableEq

/-- One `if (!columnNames.has(name)) ALTER TABLE ... ADD COLUMN name ... DEFAULT d`
step: when the column is absent, record it and give every existing row the
default value. -/
def addColumnIfMissing (state : DbState) (name : String) (default : SqlVal)
    (setter : MigRow → SqlVal → MigRow) : DbState :=
  if state.columns.contains name then state
  else { columns := state.columns ++ [name],
         rows := state.rows.map (fun r => setter r default) }

/-- The fourteen ADD COLUMN steps of `ensureRegistrationColumns`, in source
order, with their declared defaults (nullable columns default to NULL). -/
def migColumns : List (String × SqlVal × (MigRow → SqlVal → MigRow)) :=
  [("camp_type", SqlVal.text "iaido", fun r v => { r with camp_type := v }),
   ("meal_plan", SqlVal.text "none", fun r v => { r with meal_plan := v }),
   ("accommodation", SqlVal.text "none", fun r v => { r with accommodation := v }),
   ("price_breakdown", SqlVal.text "\x7b\x7d", fun r v => { r with price_breakdown := v }),
   ("current_grade_iaido", SqlVal.text "", fun r v => { r with current_grade_iaido := v }),
   ("current_grade_jodo", SqlVal.text "", fun r v => { r with current_grade_jodo := v }),
   ("wants_exam_iaido", SqlVal.int 0, fun r v => { r with wants_exam_iaido := v }),
   ("target_grade_iaido", SqlVal.null, fun r v => { r with target_grade_iaido := v }),
   ("wants_exam_jodo", SqlVal.int 0, fun r v => { r with wants_exam_jodo := v }),
   ("target_grade_jodo", SqlVal.null, fun r v => { r with target_grade_jodo := v }),
   ("privacy_policy_version", SqlVal.text "", fun r v => { r with privacy_policy_version := v }),
   ("terms_version", SqlVal.text "", fun r v => { r with terms_version := v }),
   ("privacy_consent_at", SqlVal.text "", fun r v => { r with privacy_consent_at := v }),
   ("terms_consent_at", SqlVal.text "", fun r v => { r with terms_consent_at := v })]

/-- All fourteen ADD COLUMN steps. -/
def addMissingColumns (state : DbState) : DbState :=
  migColumns.foldl (fun s c => addColumnIfMissing s c.1 c.2.1 c.2.2) state

/-- Per-row effect of the first backfill UPDATE (`WHERE wants_exam = 1 AND
wants_exam_iaido = 0 AND wants_exam_jodo = 0`), with the two CASE expressions
kept literal. -/
def backfillExamRow (r : MigRow) : MigRow :=
  if r.wants_exam == SqlVal.int 1 && r.wants_exam_iaido == SqlVal.int 0 &&
      r.wants_exam_jodo == SqlVal.int 0 then
    { r with
      wants_exam_iaido :=
        if r.wants_exam == SqlVal.int 1 then SqlVal.int 1 else r.wants_exam_iaido
      target_grade_iaido :=
        if r.wants_exam == SqlVal.int 1 &&
            coalesceEmpty r.target_grade_iaido == SqlVal.text "" then
          coalesceEmpty r.target_grade
        else r.target_grade_iaido }
  else r

/-- Per-row effect of the second backfill UPDATE (`WHERE
COALESCE(current_grade_iaido, '') = ''`). -/
def backfillGradeRow (r : MigRow) : MigRow :=
  if coalesceEmpty r.current_grade_iaido == SqlVal.text "" then
    { r with
      current_grade_iaido :=
        if coalesceEmpty r.current_grade_iaido == SqlVal.text "" then
          coalesceEmpty r.current_grade
        else r.current_grade_iaido }
  else r

/-- `ensureRegistrationColumns(db)`: add the missing columns, then run the two
backfill UPDATE statements over all rows. -/
def ensureRegistrationColumns (state : DbState) : DbState :=
  { columns := (addMissingColumns state).columns,
    rows := ((addMissingColumns state).rows.map backfillExamRow).map backfillGradeRow }

theorem addColumnIfMissing_of_contains (s : DbState) (n : String) (d : SqlVal)
    (setter : MigRow → SqlVal → MigRow) (h : s.columns.contains n = true) :
    addColumnIfMissing s n d setter = s := by
  unfold addColumnIfMissing
  rw [if_pos h]

theorem contains_addColumnIfMissing (s : DbState) (n : String) (d : SqlVal)
    (setter : MigRow → SqlVal → MigRow) (m : String) :
    ((addColumnIfMissing s n d setter).columns.contains m) =
      (s.columns.contains m || m == n) := by
  unfold addColumnIfMissing
  by_cases h : s.columns.contains n
  · by_cases hm : m = n
    · subst hm
      simp_all
    · simp_all
  · by_cases hm : m = n
    · subst hm
      simp_all
    · simp_all

theorem foldAdd_contains_mono
    (cols : List (String × SqlVal × (MigRow → SqlVal → MigRow))) (s : DbState)
    (m : String) (h : s.columns.contains m = true) :
    ((cols.foldl (fun s c => addColumnIfMissing s c.1 c.2.1 c.2.2) s).columns.contains m)
      = true := by
  induction cols generalizing s with
  | nil => exact h
  | cons c rest ih =>
    rw [List.foldl_cons]
    exact ih _ (by rw [contains_addColumnIfMissing, h, Bool.true_or])

theorem foldAdd_contains_elem
    (cols : List (String × SqlVal × (MigRow → SqlVal → MigRow))) (s : DbState) :
    ∀ c ∈ cols,
      ((cols.foldl (fun s c => addColumnIfMissing s c.1 c.2.1 c.2.2) s).columns.contains c.1)
        = true := by
  induction cols generalizing s with
  | nil => intro c hc; simp at hc
  | cons c rest ih =>
    intro c2 hc2
    rw [List.foldl_cons]
    rcases List.mem_cons.mp hc2 with h | h
    · subst h
      exact foldAdd_contains_mono rest _ c2.1
        (by rw [contains_addColumnIfMissing, BEq.refl, Bool.or_true])
    · exact ih _ c2 h

theorem addColumns_noop
    (cols : List (String × SqlVal × (MigRow → SqlVal → MigRow))) (t : DbState)
    (h : ∀ c ∈ cols, t.columns.contains c.1 = true) :
    cols.foldl (fun s c => addColumnIfMissing s c.1 c.2.1 c.2.2) t = t := by
  induction cols with
  | nil => rfl
  | cons c rest ih =>
    rw [List.foldl_cons, addColumnIfMissing_of_contains _ _ _ _ (h c (by simp))]
    exact ih (fun c2 hc2 => h c2 (by simp [hc2]))

theorem coalesceEmpty_idem (v : SqlVal) :
    coalesceEmpty (coalesceEmpty v) = coalesceEmpty v := by
  cases v <;> rfl

theorem backfillGradeRow_idem (r : MigRow) :
    backfillGradeRow (backfillGradeRow r) = backfillGradeRow r := by
  unfold backfillGradeRow
  by_cases h : coalesceEmpty r.current_grade_iaido == SqlVal.text ""
  · simp only [h, if_true, Bool.and_self]
    by_cases h2 : coalesceEmpty r.current_grade == SqlVal.text ""
    · simp [coalesceEmpty_idem, h2]
    · simp [coalesceEmpty_idem, h2]
  · simp only [h, Bool.false_eq_true, if_false]

theorem backfillGradeRow_wants_fields (r : MigRow) :
    (backfillGradeRow r).wants_exam = r.wants_exam
    ∧ (backfillGradeRow r).wants_exam_iaido = r.wants_exam_iaido
    ∧ (backfillGradeRow r).wants_exam_jodo = r.wants_exam_jodo := by
  unfold backfillGradeRow
  split <;> exact ⟨rfl, rfl, rfl⟩

theorem backfillExamRow_eq_self (r : MigRow)
    (h : (r.wants_exam == SqlVal.int 1 && r.wants_exam_iaido == SqlVal.int 0 &&
      r.wants_exam_jodo == SqlVal.int 0) = false) :
    backfillExamRow r = r := by
  unfold backfillExamRow
  rw [h]
  simp

theorem backfillExamRow_fix (x : MigRow) :
    backfillExamRow (backfillGradeRow (backfillExamRow x))
      = backfillGradeRow (backfillExamRow x) := by
  by_cases h : (x.wants_exam == SqlVal.int 1 && x.wants_exam_iaido == SqlVal.int 0 &&
      x.wants_exam_jodo == SqlVal.int 0) = true
  · have h1 : (x.wants_exam == SqlVal.int 1) = true := by
      simp only [Bool.and_eq_true] at h
      exact h.1.1
    have e1 : x.wants_exam = SqlVal.int 1 := eq_of_beq h1
    have hwei : (backfillExamRow x).wants_exam_iaido = SqlVal.int 1 := by
      unfold backfillExamRow
      rw [if_pos h]
      simp [e1]
    have hwei2 : (backfillGradeRow (backfillExamRow x)).wants_exam_iaido = SqlVal.int 1 := by
      rw [(backfillGradeRow_wants_fields _).2.1, hwei]
    apply backfillExamRow_eq_self
    rw [hwei2]
    simp
  · have hfalse : (x.wants_exam == SqlVal.int 1 && x.wants_exam_iaido == SqlVal.int 0 &&
        x.wants_exam_jodo == SqlVal.int 0) = false := by
      simpa using h
    have hx : backfillExamRow x = x := backfillExamRow_eq_self x hfalse
    rw [hx]
    have hw := backfillGradeRow_wants_fields x
    apply backfillExamRow_eq_self
    rw [hw.1, hw.2.1, hw.2.2]
    exact hfalse

/-- C9: running the column-migration-and-backfill step twice leaves the store
exactly as running it once — the second run adds no column (all fourteen are
present after the first) and re-runs the two backfill UPDATEs as no-ops; and
the backfills never overwrite a non-empty discipline-specific value. -/
theorem ensureRegistrationColumns_idempotent (state : DbState) :
    ensureRegistrationColumns (ensureRegistrationColumns state)
      = ensureRegistrationColumns state
    ∧ (∀ r : MigRow, coalesceEmpty r.current_grade_iaido ≠ SqlVal.text "" →
        (backfillGradeRow r).current_grade_iaido = r.current_grade_iaido)
    ∧ (∀ r : MigRow, coalesceEmpty r.target_grade_iaido ≠ SqlVal.text "" →
        (backfillExamRow r).target_grade_iaido = r.target_grade_iaido) := by
  refine ⟨?_, ?_, ?_⟩
  · have hcols : (ensureRegistrationColumns state).columns
        = (addMissingColumns state).columns := by
      simp only [ensureRegistrationColumns]
    have hrows0 : (ensureRegistrationColumns state).rows
        = ((addMissingColumns state).rows.map backfillExamRow).map backfillGradeRow := by
      simp only [ensureRegistrationColumns]
    have hnoop : addMissingColumns (ensureRegistrationColumns state)
        = ensureRegistrationColumns state := by
      apply addColumns_noop
      intro c hc
      rw [hcols]
      exact foldAdd_contains_elem migColumns state c hc
    have hrows : ((ensureRegistrationColumns state).rows.map backfillExamRow).map
        backfillGradeRow = (ensureRegistrationColumns state).rows := by
      rw [hrows0]
      simp only [List.map_map]
      apply List.map_congr_left
      intro r _
      show backfillGradeRow (backfillExamRow (backfillGradeRow (backfillExamRow r)))
        = backfillGradeRow (backfillExamRow r)
      rw [backfillExamRow_fix, backfillGradeRow_idem]
    have hunfold : ensureRegistrationColumns (ensureRegistrationColumns state)
        = { columns := (addMissingColumns (ensureRegistrationColumns state)).columns,
            rows := ((addMissingColumns (ensureRegistrationColumns state)).rows.map
              backfillExamRow).map backfillGradeRow } := by
      conv_lhs => rw [ensureRegistrationColumns]
    rw [hunfold, hnoop, hrows]
  · intro r h
    have hb : (coalesceEmpty r.current_grade_iaido == SqlVal.text "") = false := by
      simpa using h
    unfold backfillGradeRow
    simp [hb]
  · intro r h
    have hb : (coalesceEmpty r.target_grade_iaido == SqlVal.text "") = false := by
      simpa using h
    unfold backfillExamRow
    split
    · simp [hb]
    · rfl

/-- Witness for `ensureRegistrationColumns_idempotent`: a non-empty
discipline-specific grade survives the backfill untouched. -/
theorem ensureRegistrationColumns_idempotent_witness :
    (backfillGradeRow
        ⟨SqlVal.text "1 dan", SqlVal.int 0, SqlVal.text "", SqlVal.text "iaido",
         SqlVal.text "none", SqlVal.text "none", SqlVal.text "\x7b\x7d",
         SqlVal.text "5 dan", SqlVal.text "", SqlVal.int 0, SqlVal.null,
         SqlVal.int 0, SqlVal.null, SqlVal.text "", SqlVal.text "",
         SqlVal.text "", SqlVal.text ""⟩).current_grade_iaido
      = SqlVal.text "5 dan" :=
  (ensureRegistrationColumns_idempotent ⟨[], []⟩).2.1 _ (by decide)

/-! ### Admin session tokens (server.js: signSessionPayload,
buildAdminSessionToken, safeEqualStrings, verifyAdminSessionToken).

The Node primitives that are not part of this repository are abstracted:
`hmac secret payload` stands for
`createHmac('sha256', secret).update(payload).digest('base64url')`, and
`enc`/`dec` stand for the base64url JSON payload codec
(`Buffer.from(JSON.stringify(payload)).toString('base64url')` and its
inverse with the `typeof exp === 'number'` shape check folded in, `none`
meaning JSON.parse threw).  Base64url output never contains a dot, which the
theorems track through explicit hypotheses. -/

/-- `ADMIN_SESSION_TTL_SECONDS`. -/
def ADMIN_SESSION_TTL_SECONDS : Int := 60 * 60 * 12

/-- The decoded session payload `{username, exp}`; a field is `none` when the
parsed JSON lacks it (or, for `exp`, is not a number). -/
structure SessionPayload where
  username : Option String
  exp : Option Int
deriving DecidableEq

/-- JavaScript `token.split('.')` on the character list. -/
def splitDot : List Char → List (List Char)
  | [] => [[]]
  | c :: rest =>
    match splitDot rest with
    | [] => [[]]
    | g :: gs => if c == '.' then [] :: g :: gs else (c :: g) :: gs

/-- `safeEqualStrings(left, right)`: length check plus `timingSafeEqual` is
string equality (the timing behaviour is not modelled). -/
def safeEqualStrings (left right : String) : Bool :=
  left == right

/-- `signSessionPayload(encodedPayload)` with the secret explicit. -/
def signSessionPayload (hmac : String → String → String) (secret : String)
    (encodedPayload : String) : String :=
  hmac secret encodedPayload

/-- `buildAdminSessionToken()`: payload with the configured username and
`now + TTL` expiry, encoded and signed. -/
def buildAdminSessionToken (hmac : String → String → String)
    (enc : SessionPayload → String) (secret adminUsername : String)
    (nowSec : Int) : String :=
  let payload : SessionPayload :=
    ⟨some adminUsername, some (nowSec + ADMIN_SESSION_TTL_SECONDS)⟩
  let encodedPayload := enc payload
  let signature := signSessionPayload hmac secret encodedPayload
  encodedPayload ++ "." ++ signature

/-- `verifyAdminSessionToken(token)`. -/
def verifyAdminSessionToken (hmac : String → String → String)
    (dec : String → Option SessionPayload) (secret adminUsername : String)
    (nowSec : Int) (token : String) : Bool :=
  if !(token.data.contains '.') then false
  else
    match splitDot token.data with
    | [encodedPayload, signature] =>
      if encodedPayload.isEmpty || signature.isEmpty then false
      else if !(safeEqualStrings (String.mk signature)
          (signSessionPayload hmac secret (String.mk encodedPayload))) then false
      else
        match dec (String.mk encodedPayload) with
        | none => false
        | some payload =>
          if !(payload.username == some adminUsername) then false
          else
            match payload.exp with
            | none => false
            | some e => if e < nowSec then false else true
    | _ => false

theorem splitDot_cons (c : Char) (rest : List Char) :
    splitDot (c :: rest) =
      (match splitDot rest with
       | [] => [[]]
       | g :: gs => if c == '.' then [] :: g :: gs else (c :: g) :: gs) := rfl

theorem splitDot_ne_nil : ∀ l : List Char, splitDot l ≠ [] := by
  intro l
  induction l with
  | nil => simp [splitDot]
  | cons c rest ih =>
    rw [splitDot_cons]
    cases h : splitDot rest with
    | nil => simp
    | cons g gs =>
      by_cases hc : c == '.' <;> simp [hc]

theorem splitDot_no_dot (l : List Char) (h : '.' ∉ l) : splitDot l = [l] := by
  induction l with
  | nil => rfl
  | cons c rest ih =>
    have hc : (c == '.') = false := by
      simp only [beq_eq_false_iff_ne, ne_eq]
      intro hceq
      exact h (by rw [hceq]; exact List.mem_cons_self _ _)
    have hrest : '.' ∉ rest := fun hm => h (List.mem_cons_of_mem _ hm)
    rw [splitDot_cons, ih hrest]
    simp [hc]

theorem splitDot_append (a b : List Char) (ha : '.' ∉ a) :
    splitDot (a ++ '.' :: b) = a :: splitDot b := by
  induction a with
  | nil =>
    simp only [List.nil_append]
    rw [splitDot_cons]
    cases h : splitDot b with
    | nil => exact absurd h (splitDot_ne_nil b)
    | cons g gs => simp
  | cons c a2 ih =>
    have hc : (c == '.') = false := by
      simp only [beq_eq_false_iff_ne, ne_eq]
      intro hceq
      exact ha (by rw [hceq]; exact List.mem_cons_self _ _)
    have ha2 : '.' ∉ a2 := fun hm => ha (List.mem_cons_of_mem _ hm)
    show splitDot (c :: (a2 ++ '.' :: b)) = (c :: a2) :: splitDot b
    rw [splitDot_cons, ih ha2]
    simp [hc]

theorem splitDot_eq_single : ∀ (l g : List Char), splitDot l = [g] → l = g ∧ '.' ∉ l := by
  intro l
  induction l with
  | nil =>
    intro g h
    simp only [splitDot] at h
    injection h with h1 h2
    exact ⟨h1, by simp⟩
  | cons c rest ih =>
    intro g h
    rw [splitDot_cons] at h
    cases hr : splitDot rest with
    | nil => exact absurd hr (splitDot_ne_nil rest)
    | cons g0 gs =>
      rw [hr] at h
      by_cases hc : (c == '.') = true
      · simp only [hc, if_true] at h
        injection h with h1 h2
        injection h2
      · simp only [hc, Bool.false_eq_true, if_false] at h
        injection h with h1 h2
        have hsingle : splitDot rest = [g0] := by rw [hr, h2]
        obtain ⟨hrest, hnd⟩ := ih g0 hsingle
        refine ⟨by rw [← h1, hrest], ?_⟩
        intro hmem
        rcases List.mem_cons.mp hmem with hh | hh
        · exact absurd (beq_iff_eq.mpr hh.symm) (by simpa using hc)
        · exact hnd hh

theorem splitDot_eq_pair : ∀ (l p s : List Char),
    splitDot l = [p, s] → l = p ++ '.' :: s ∧ '.' ∉ p ∧ '.' ∉ s := by
  intro l
  induction l with
  | nil =>
    intro p s h
    simp only [splitDot] at h
    injection h with h1 h2
    injection h2
  | cons c rest ih =>
    intro p s h
    rw [splitDot_cons] at h
    cases hr : splitDot rest with
    | nil => exact absurd hr (splitDot_ne_nil rest)
    | cons g0 gs =>
      rw [hr] at h
      by_cases hc : (c == '.') = true
      · simp only [hc, if_true] at h
        injection h with h1 h2
        have hsingle : splitDot rest = [s] := by rw [hr, h2]
        obtain ⟨hrest, hnd⟩ := splitDot_eq_single rest s hsingle
        have hceq : c = '.' := beq_iff_eq.mp hc
        refine ⟨?_, ?_, hrest ▸ hnd⟩
        · rw [← h1, hceq, hrest]
          rfl
        · rw [← h1]
          simp
      · simp only [hc, Bool.false_eq_true, if_false] at h
        injection h with h1 h2
        have hpair : splitDot rest = [g0, s] := by rw [hr, h2]
        obtain ⟨hrest, hnd1, hnd2⟩ := ih g0 s hpair
        refine ⟨?_, ?_, hnd2⟩
        · rw [← h1, hrest]
          rfl
        · intro hmem
          rw [← h1] at hmem
          rcases List.mem_cons.mp hmem with hh | hh
          · exact absurd (beq_iff_eq.mpr hh.symm) (by simpa using hc)
          · exact hnd1 hh

theorem stringDataExt {a b : String} (h : a.data = b.data) : a = b := by
  cases a
  cases b
  exact congrArg String.mk (by simpa using h)

/-- Computation of `verifyAdminSessionToken` on a two-segment token whose
segments are dot-free. -/
theorem verifyAdminSessionToken_parts (hmac : String → String → String)
    (dec : String → Option SessionPayload) (secret adminUsername : String)
    (nowSec : Int) (p s : String)
    (hp : ¬ p.data.contains '.' = true) (hs : ¬ s.data.contains '.' = true) :
    verifyAdminSessionToken hmac dec secret adminUsername nowSec (p ++ "." ++ s)
      = (if p.data.isEmpty || s.data.isEmpty then false
         else if !(safeEqualStrings s (signSessionPayload hmac secret p)) then false
         else match dec p with
           | none => false
           | some payload =>
             if !(payload.username == some adminUsername) then false
             else match payload.exp with
               | none => false
               | some e => if e < nowSec then false else true) := by
  have hpm : '.' ∉ p.data := by simpa using hp
  have hsm : '.' ∉ s.data := by simpa using hs
  have hdata : (p ++ "." ++ s).data = p.data ++ '.' :: s.data := by
    show (p.data ++ ".".data) ++ s.data = p.data ++ '.' :: s.data
    simp
  have hsplit : splitDot ((p ++ "." ++ s).data) = [p.data, s.data] := by
    rw [hdata, splitDot_append _ _ hpm, splitDot_no_dot _ hsm]
  have hcont : ((p ++ "." ++ s).data.contains '.') = true := by
    rw [hdata]
    simp
  unfold verifyAdminSessionToken
  rw [hsplit, hcont]
  rfl

/-- C7: session-token verification rejects every malformed token (wrong
segment count); rejects every two-segment token whose signature differs from
the HMAC of its payload segment under the server's secret — in particular the
token built under one secret fails verification under another secret whenever
the two secrets' HMACs of the payload differ; rejects a correctly signed token
whose embedded expiry is in the past; and accepts a token only when it is
well-formed, correctly signed, its payload decodes, names the configured admin
username, and carries an unexpired numeric expiry.  (`hmac` and the base64url
JSON payload codec `enc`/`dec` are the Node primitives abstracted as
parameters; the dot-freedom hypotheses record that base64url output never
contains a `.`.) -/
theorem verifyAdminSessionToken_spec (hmac : String → String → String)
    (dec : String → Option SessionPayload) (enc : SessionPayload → String)
    (secret secret2 adminUsername : String) (nowSec : Int) :
    (∀ token : String, (splitDot token.data).length ≠ 2 →
      verifyAdminSessionToken hmac dec secret adminUsername nowSec token = false)
    ∧ (∀ p s : String, ¬ p.data.contains '.' = true → ¬ s.data.contains '.' = true →
        s ≠ hmac secret p →
        verifyAdminSessionToken hmac dec secret adminUsername nowSec
          (p ++ "." ++ s) = false)
    ∧ (∀ (payload : SessionPayload) (e : Int),
        ¬ (enc payload).data.contains '.' = true →
        ¬ (hmac secret (enc payload)).data.contains '.' = true →
        dec (enc payload) = some payload → payload.exp = some e → e < nowSec →
        verifyAdminSessionToken hmac dec secret adminUsername nowSec
          (enc payload ++ "." ++ hmac secret (enc payload)) = false)
    ∧ (¬ (enc ⟨some adminUsername, some (nowSec + ADMIN_SESSION_TTL_SECONDS)⟩).data.contains '.'
          = true →
        ¬ (hmac secret (enc ⟨some adminUsername,
            some (nowSec + ADMIN_SESSION_TTL_SECONDS)⟩)).data.contains '.' = true →
        hmac secret2 (enc ⟨some adminUsername, some (nowSec + ADMIN_SESSION_TTL_SECONDS)⟩)
          ≠ hmac secret (enc ⟨some adminUsername, some (nowSec + ADMIN_SESSION_TTL_SECONDS)⟩) →
        verifyAdminSessionToken hmac dec secret2 adminUsername nowSec
          (buildAdminSessionToken hmac enc secret adminUsername nowSec) = false)
    ∧ (∀ token : String,
        verifyAdminSessionToken hmac dec secret adminUsername nowSec token = true →
        ∃ (p s : List Char) (payload : SessionPayload) (e : Int),
          token.data = p ++ '.' :: s
          ∧ String.mk s = hmac secret (String.mk p)
          ∧ dec (String.mk p) = some payload
          ∧ payload.username = some adminUsername
          ∧ payload.exp = some e
          ∧ nowSec ≤ e) := by
  refine ⟨?_, ?_, ?_, ?_, ?_⟩
  · intro token hlen
    by_cases hc : token.data.contains '.' = true
    · cases hsp : splitDot token.data with
      | nil => exact absurd hsp (splitDot_ne_nil _)
      | cons a t =>
        cases t with
        | nil => simp [verifyAdminSessionToken, hc, hsp]
        | cons b t2 =>
          cases t2 with
          | nil => exact absurd (by rw [hsp]; rfl) hlen
          | cons x t3 => simp [verifyAdminSessionToken, hc, hsp]
    · unfold verifyAdminSessionToken
      rw [show (token.data.contains '.') = false from by simpa using hc]
      rfl
  · intro p s hp hs hne
    rw [verifyAdminSessionToken_parts hmac dec secret adminUsername nowSec p s hp hs]
    have hse : safeEqualStrings s (signSessionPayload hmac secret p) = false := by
      simp [safeEqualStrings, signSessionPayload, hne]
    rw [hse]
    simp
  · intro payload e hpe hse hdec hexp hlt
    rw [verifyAdminSessionToken_parts hmac dec secret adminUsername nowSec
      (enc payload) (hmac secret (enc payload)) hpe hse]
    simp [safeEqualStrings, signSessionPayload, hdec, hexp, hlt]
  · intro h1 h2 hne
    have hbuild : buildAdminSessionToken hmac enc secret adminUsername nowSec
        = enc ⟨some adminUsername, some (nowSec + ADMIN_SESSION_TTL_SECONDS)⟩ ++ "." ++
          hmac secret (enc ⟨some adminUsername, some (nowSec + ADMIN_SESSION_TTL_SECONDS)⟩) :=
      rfl
    rw [hbuild, verifyAdminSessionToken_parts hmac dec secret2 adminUsername nowSec _ _ h1 h2]
    have hse : safeEqualStrings
        (hmac secret (enc ⟨some adminUsername, some (nowSec + ADMIN_SESSION_TTL_SECONDS)⟩))
        (signSessionPayload hmac secret2
          (enc ⟨some adminUsername, some (nowSec + ADMIN_SESSION_TTL_SECONDS)⟩)) = false := by
      simp only [safeEqualStrings, signSessionPayload, beq_eq_false_iff_ne, ne_eq]
      exact fun hcontra => hne hcontra.symm
    rw [hse]
    simp
  · intro token h
    by_cases hc : token.data.contains '.' = true
    · cases hsp : splitDot token.data with
      | nil => exact absurd hsp (splitDot_ne_nil _)
      | cons a t =>
        cases t with
        | nil =>
          rw [show verifyAdminSessionToken hmac dec secret adminUsername nowSec token = false by
            simp [verifyAdminSessionToken, hc, hsp]] at h
          exact absurd h (by simp)
        | cons b t2 =>
          cases t2 with
          | cons x t3 =>
            rw [show verifyAdminSessionToken hmac dec secret adminUsername nowSec token = false by
              simp [verifyAdminSessionToken, hc, hsp]] at h
            exact absurd h (by simp)
          | nil =>
            obtain ⟨htok, hpa, hpb⟩ := splitDot_eq_pair token.data a b hsp
            have htok2 : token = String.mk a ++ "." ++ String.mk b := by
              apply stringDataExt
              rw [htok]
              show a ++ '.' :: b = ((String.mk a).data ++ ".".data) ++ (String.mk b).data
              simp
            rw [htok2] at h
            rw [verifyAdminSessionToken_parts hmac dec secret adminUsername nowSec
              (String.mk a) (String.mk b) (by simpa using hpa) (by simpa using hpb)] at h
            split at h
            · exact absurd h (by simp)
            · split at h
              · exact absurd h (by simp)
              · rename_i hempf hsigf
                split at h
                · exact absurd h (by simp)
                · rename_i payload hdec
                  split at h
                  · exact absurd h (by simp)
                  · rename_i husrf
                    split at h
                    · exact absurd h (by simp)
                    · rename_i e hexp
                      split at h
                      · exact absurd h (by simp)
                      · rename_i hlt
                        refine ⟨a, b, payload, e, htok, ?_, hdec, ?_, hexp,
                          Int.not_lt.mp hlt⟩
                        · have hse : safeEqualStrings (String.mk b)
                              (signSessionPayload hmac secret (String.mk a)) = true := by
                            simpa using hsigf
                          have hbeq : String.mk b
                              = signSessionPayload hmac secret (String.mk a) := by
                            simpa [safeEqualStrings] using hse
                          simpa [signSessionPayload] using hbeq
                        · have husr : (payload.username == some adminUsername) = true := by
                            simpa using husrf
                          exact beq_iff_eq.mp husr
    · have hfalse : verifyAdminSessionToken hmac dec secret adminUsername nowSec token
          = false := by
        unfold verifyAdminSessionToken
        rw [show (token.data.contains '.') = false from by simpa using hc]
        rfl
      rw [hfalse] at h
      exact absurd h (by simp)

/-- Witness for `verifyAdminSessionToken_spec` at concrete instantiations: a
one-segment token is rejected, and a token built under secret `kA` is rejected
when verified under secret `kB` (whose HMACs differ on the payload). -/
theorem verifyAdminSessionToken_spec_witness :
    verifyAdminSessionToken (fun secret payload => secret ++ payload)
        (fun _ => none) "kA" "admin" 0 "abc" = false
    ∧ verifyAdminSessionToken (fun secret payload => secret ++ payload)
        (fun _ => none) "kB" "admin" 0
        (buildAdminSessionToken (fun secret payload => secret ++ payload)
          (fun _ => "p0") "kA" "admin" 0) = false :=
  ⟨(verifyAdminSessionToken_spec (fun secret payload => secret ++ payload)
      (fun _ => none) (fun _ => "p0") "kA" "kB" "admin" 0).1 "abc" (by decide),
   (verifyAdminSessionToken_spec (fun secret payload => secret ++ payload)
      (fun _ => none) (fun _ => "p0") "kA" "kB" "admin" 0).2.2.2.1
      (by decide) (by decide) (by decide)⟩

end IaidoCamp
